import Mathlib

/-!
Shallow embedding of the denoising-autoencoder notebook
`4_autoencoders/Autoencoders-Solution.ipynb`.

Tensors are total functions from `Fin`-indexed coordinates to rationals
(the final sigmoid stage lives over the reals, since `sigmoid` is
transcendental).  Shapes are carried by the index types, so "output has
shape (N,28,28,1)" is encoded by the codomain
`Fin N → Fin 28 → Fin 28 → Fin 1 → ℚ`.  Names follow the notebook's
variables where Lean allows it.
-/

namespace Autoencoders

/-- Notebook constant: image_size = 28. -/
def image_size : ℕ := 28

/-- Notebook constant: kernel_size = 3. -/
def kernel_size : ℕ := 3

/-- Notebook constant: latent_dim = 16. -/
def latent_dim : ℕ := 16

/-- Notebook constant: batch_size = 128. -/
def batch_size : ℕ := 128

/-- A single normalized image, shape `(28, 28, 1)`. -/
abbrev Img := Fin image_size → Fin image_size → Fin 1 → ℚ

/-- A batch of `n` images, shape `(n, 28, 28, 1)`. -/
abbrev Batch (n : ℕ) := Fin n → Img

/-- Data preparation, np.reshape(x, [-1, 28, 28, 1]) / 255: normalize raw
uint8 pixels of
shape `(N,28,28)` into floats of shape `(N,28,28,1)` scaled by `1/255`. -/
def dataPrep {n : ℕ} (raw : Fin n → Fin image_size → Fin image_size → ℕ) :
    Batch n :=
  fun b i j _ => (raw b i j : ℚ) / 255

/-- Scalar np.clip(q, 0., 1.): saturate into the interval from 0 to 1. -/
def clip01 (q : ℚ) : ℚ := min (max q 0) 1

/-- Numpy elementwise add x + noise (allocates a fresh array). -/
def addNoise {n : ℕ} (x noise : Batch n) : Batch n :=
  fun b i j c => x b i j c + noise b i j c

/-- The four arrays the data-preparation cells of the notebook bind:
the clean train/test tensors and their noisy variants. -/
structure PrepState (ntr nte : ℕ) where
  xTrain : Batch ntr
  xTest : Batch nte
  xTrainNoisy : Batch ntr
  xTestNoisy : Batch nte

/-- The noise-injection cell:
`x_train_noisy = x_train + noise₁`, `x_test_noisy = x_test + noise₂`,
then `x_train_noisy = np.clip(x_train_noisy, 0., 1.)`,
`x_test_noisy = np.clip(x_test_noisy, 0., 1.)`.
The two Gaussian draws are modelled as arbitrary tensors `noiseTr`,
`noiseTe` (the property quantifies over every possible draw). -/
def noiseInjection {ntr nte : ℕ} (s : PrepState ntr nte)
    (noiseTr : Batch ntr) (noiseTe : Batch nte) : PrepState ntr nte :=
  let s1 := { s with xTrainNoisy := addNoise s.xTrain noiseTr }
  let s2 := { s1 with xTestNoisy := addNoise s1.xTest noiseTe }
  let s3 := { s2 with xTrainNoisy := fun b i j c => clip01 (s2.xTrainNoisy b i j c) }
  { s3 with xTestNoisy := fun b i j c => clip01 (s3.xTestNoisy b i j c) }

/-- Ceiling division on naturals: the output spatial size of a same-padded
strided convolution (`output = ceil(input / stride)`). -/
def ceilDiv (a b : ℕ) : ℕ := (a + b - 1) / b

/-- The relu activation. -/
def relu (q : ℚ) : ℚ := max 0 q

/-- Zero-padded access into an `(H, W, C)` feature map at possibly
out-of-range integer coordinates (the `same` padding reads zeros). -/
def getPad {H W C : ℕ} (x : Fin H → Fin W → Fin C → ℚ) (i j : ℤ)
    (c : Fin C) : ℚ :=
  if hi : 0 ≤ i ∧ i < H then
    if hj : 0 ≤ j ∧ j < W then
      x ⟨i.toNat, by omega⟩ ⟨j.toNat, by omega⟩ c
    else 0
  else 0

/-- Zero-extended access into a `3 × 3` kernel at integer tap positions:
taps outside `[0, kernel_size)` contribute nothing. -/
def kTap {A B : Type} [Zero B] (w : Fin kernel_size → Fin kernel_size → A → B)
    (ki kj : ℤ) (a : A) : B :=
  if hki : 0 ≤ ki ∧ ki < (kernel_size : ℤ) then
    if hkj : 0 ≤ kj ∧ kj < (kernel_size : ℤ) then
      w ⟨ki.toNat, by revert hki; unfold kernel_size; omega⟩
        ⟨kj.toNat, by revert hkj; unfold kernel_size; omega⟩ a
    else 0
  else 0

/-- Leading padding of a `same`-padded convolution along one spatial axis
of size `n` with stride `str` (TensorFlow semantics:
`pad_total = max((out-1)*stride + kernel - in, 0)`, leading pad is
`pad_total / 2`). -/
def padSame (n str : ℕ) : ℤ :=
  (max ((ceilDiv n str - 1 : ℤ) * str + kernel_size - n) 0) / 2

/-- Keras Conv2D(filters=outC, kernel_size=3, strides=str, padding=same)
with activation `act`, on an `(H, W, inC)` input.  The kernel layout is
the Keras layout `(kh, kw, inC, outC)`; the output spatial size is
`ceil(input/stride)` per axis. -/
def conv2dSame (str : ℕ) {H W inC outC : ℕ}
    (w : Fin kernel_size → Fin kernel_size → Fin inC → Fin outC → ℚ)
    (b : Fin outC → ℚ) (act : ℚ → ℚ)
    (x : Fin H → Fin W → Fin inC → ℚ) :
    Fin (ceilDiv H str) → Fin (ceilDiv W str) → Fin outC → ℚ :=
  fun i j oc =>
    act ((∑ ki : Fin kernel_size, ∑ kj : Fin kernel_size, ∑ ic : Fin inC,
        w ki kj ic oc *
          getPad x ((i : ℤ) * str + ki - padSame H str)
            ((j : ℤ) * str + kj - padSame W str) ic) + b oc)

/-- Leading padding of a `same`-padded transposed convolution along one
spatial axis (the transpose of `conv2dSame` from `n*str` down to `n`):
`pad_total = max(kernel - stride, 0)`, leading pad `pad_total / 2`. -/
def padSameT (str : ℕ) : ℤ := (max ((kernel_size : ℤ) - str) 0) / 2

/-- Keras Conv2DTranspose(filters=outC, kernel_size=3, strides=str,
padding=same) with activation `act`, on an `(H, W, inC)` input.  The
kernel layout is the Keras layout `(kh, kw, outC, inC)`; the output spatial size is
`input * stride` per axis, and output pixel `(i, j)` collects every input
pixel `(p, q)` whose kernel tap `(i - p*str + pad, j - q*str + pad)` is
in range. -/
def convT2dSame (str : ℕ) {H W inC outC : ℕ}
    (w : Fin kernel_size → Fin kernel_size → Fin outC → Fin inC → ℚ)
    (b : Fin outC → ℚ) (act : ℚ → ℚ)
    (x : Fin H → Fin W → Fin inC → ℚ) :
    Fin (H * str) → Fin (W * str) → Fin outC → ℚ :=
  fun i j oc =>
    act ((∑ p : Fin H, ∑ q : Fin W, ∑ ic : Fin inC,
        kTap (fun ki kj oc => w ki kj oc ic)
          ((i : ℤ) - (p : ℤ) * str + padSameT str)
          ((j : ℤ) - (q : ℤ) * str + padSameT str) oc * x p q ic) + b oc)

/-- Keras Dense(outN) with no activation: output = input . kernel +
bias, with kernel layout `(inN, outN)`. -/
def dense {inN outN : ℕ} (w : Fin inN → Fin outN → ℚ) (b : Fin outN → ℚ)
    (v : Fin inN → ℚ) : Fin outN → ℚ :=
  fun o => (∑ i : Fin inN, v i * w i o) + b o

/-- Keras Flatten: row-major (H, W, C) to H*W*C, element h*(W*C) + w*C + c. -/
def flatten {H W C : ℕ} (x : Fin H → Fin W → Fin C → ℚ) :
    Fin (H * W * C) → ℚ :=
  fun idx =>
    have hlt : (idx : ℕ) < H * (W * C) :=
      lt_of_lt_of_eq idx.isLt (Nat.mul_assoc H W C)
    have hWC : 0 < W * C := by
      rcases Nat.eq_zero_or_pos (W * C) with h | h
      · rw [h, Nat.mul_zero] at hlt; exact absurd hlt (Nat.not_lt_zero _)
      · exact h
    have hC : 0 < C := by
      rcases Nat.eq_zero_or_pos C with h | h
      · rw [h, Nat.mul_zero] at hWC; exact absurd hWC (Nat.lt_irrefl 0)
      · exact h
    x ⟨(idx : ℕ) / (W * C), (Nat.div_lt_iff_lt_mul hWC).mpr hlt⟩
      ⟨(idx : ℕ) % (W * C) / C, (Nat.div_lt_iff_lt_mul hC).mpr
        (Nat.mod_lt _ hWC)⟩
      ⟨(idx : ℕ) % (W * C) % C, Nat.mod_lt _ hC⟩

/-- Keras Reshape((H, W, C)) of a length H*W*C vector: inverse of the
row-major flattening. -/
def reshape3 (H W C : ℕ) (v : Fin (H * W * C) → ℚ) :
    Fin H → Fin W → Fin C → ℚ :=
  fun h w c =>
    v ⟨((h : ℕ) * W + w) * C + c, by
      have h1 : (h : ℕ) * W + (w : ℕ) + 1 ≤ H * W := by
        calc (h : ℕ) * W + (w : ℕ) + 1 ≤ (h : ℕ) * W + W := by
              have := w.isLt; omega
          _ = ((h : ℕ) + 1) * W := by ring
          _ ≤ H * W := Nat.mul_le_mul_right W h.isLt
      calc ((h : ℕ) * W + (w : ℕ)) * C + (c : ℕ)
          < ((h : ℕ) * W + (w : ℕ)) * C + C := by have := c.isLt; omega
        _ = ((h : ℕ) * W + (w : ℕ) + 1) * C := by ring
        _ ≤ (H * W) * C := Nat.mul_le_mul_right C h1⟩

/-- Filter count of the encoder's first `Conv2D` stage. -/
def encFilters1 : ℕ := 32

/-- Filter count of the encoder's second `Conv2D` stage. -/
def encFilters2 : ℕ := 64

/-- Spatial size after the first stride-2 `same` convolution (28 → 14). -/
def encConvDim1 : ℕ := ceilDiv image_size 2

/-- Spatial size after the second stride-2 `same` convolution (14 → 7). -/
def encConvDim2 : ℕ := ceilDiv encConvDim1 2

/-- The product shape[1] * shape[2] * shape[3] where shape = K.int_shape(x) after
the second convolution: the length of the flattened feature map, and the
unit count of the decoder's initial `Dense` layer. -/
def encFlatDim : ℕ := encConvDim2 * encConvDim2 * encFilters2

/-- Spatial size of the decoder output: `7 → 14 → 28` through the two
stride-2 transposed convolutions, then unchanged through the final
stride-1 one. -/
def decOutDim : ℕ := encConvDim2 * 2 * 2 * 1

/-- Trainable parameters of the encoder: two convolutions and the final
`Dense(latent_dim)` bottleneck. -/
structure EncoderWeights where
  conv1W : Fin kernel_size → Fin kernel_size → Fin 1 → Fin encFilters1 → ℚ
  conv1B : Fin encFilters1 → ℚ
  conv2W : Fin kernel_size → Fin kernel_size → Fin encFilters1 → Fin encFilters2 → ℚ
  conv2B : Fin encFilters2 → ℚ
  latentW : Fin encFlatDim → Fin latent_dim → ℚ
  latentB : Fin latent_dim → ℚ

/-- Encoder stage 1: `Conv2D(32, 3, strides=2, relu, same)`. -/
def encStage1 (w : EncoderWeights) (img : Img) :
    Fin encConvDim1 → Fin encConvDim1 → Fin encFilters1 → ℚ :=
  conv2dSame 2 w.conv1W w.conv1B relu img

/-- Encoder stage 2: `Conv2D(64, 3, strides=2, relu, same)`. -/
def encStage2 (w : EncoderWeights)
    (x : Fin encConvDim1 → Fin encConvDim1 → Fin encFilters1 → ℚ) :
    Fin encConvDim2 → Fin encConvDim2 → Fin encFilters2 → ℚ :=
  conv2dSame 2 w.conv2W w.conv2B relu x

/-- The encoder model: two strided convolutions, `Flatten()`, then
`Dense(latent_dim)` with no activation (`latent = Dense(latent_dim)(x)`). -/
def encoderApply (w : EncoderWeights) (img : Img) : Fin latent_dim → ℚ :=
  dense w.latentW w.latentB (flatten (encStage2 w (encStage1 w img)))

/-- Trainable parameters of the decoder: the initial dense expansion and
three transposed convolutions. -/
structure DecoderWeights where
  denseW : Fin latent_dim → Fin encFlatDim → ℚ
  denseB : Fin encFlatDim → ℚ
  deconv1W : Fin kernel_size → Fin kernel_size → Fin encFilters2 → Fin encFilters2 → ℚ
  deconv1B : Fin encFilters2 → ℚ
  deconv2W : Fin kernel_size → Fin kernel_size → Fin encFilters1 → Fin encFilters2 → ℚ
  deconv2B : Fin encFilters1 → ℚ
  deconv3W : Fin kernel_size → Fin kernel_size → Fin 1 → Fin encFilters1 → ℚ
  deconv3B : Fin 1 → ℚ

/-- Decoder up to (and including) the final `Conv2DTranspose(1, 3,
strides=1, same) stage — everything before the sigmoid activation:
`Dense(shape[1]*shape[2]*shape[3])`, `Reshape`, `Conv2DTranspose(64, 3,
strides=2, relu, same)`, `Conv2DTranspose(32, 3, strides=2, relu, same)`,
then the linear single-filter transposed convolution. -/
def decoderPre (w : DecoderWeights) (z : Fin latent_dim → ℚ) :
    Fin decOutDim → Fin decOutDim → Fin 1 → ℚ :=
  convT2dSame 1 w.deconv3W w.deconv3B id
    (convT2dSame 2 w.deconv2W w.deconv2B relu
      (convT2dSame 2 w.deconv1W w.deconv1B relu
        (reshape3 encConvDim2 encConvDim2 encFilters2
          (dense w.denseW w.denseB z))))

/-- The sigmoid output activation: 1 / (1 + exp(-x)). -/
noncomputable def sigmoid (x : ℝ) : ℝ := 1 / (1 + Real.exp (-x))

/-- The decoder model: `decoderPre` followed elementwise by the sigmoid
output activation.  The result type records the output shape
`(28, 28, 1)`. -/
noncomputable def decoderApply (w : DecoderWeights) (z : Fin latent_dim → ℚ) :
    Fin image_size → Fin image_size → Fin 1 → ℝ :=
  fun i j c => sigmoid ((decoderPre w z i j c : ℚ) : ℝ)

/-- The parameters of the composite autoencoder are exactly the encoder's
and the decoder's parameter records — one shared store, not copies. -/
structure AEWeights where
  enc : EncoderWeights
  dec : DecoderWeights

/-- The composite autoencoder = Model(inputs, decoder(encoder(inputs))): the full
forward pass written out layer by layer over the shared parameter
record `w`. -/
noncomputable def autoencoderFwd (w : AEWeights) (img : Img) :
    Fin image_size → Fin image_size → Fin 1 → ℝ :=
  fun i j c =>
    sigmoid ((convT2dSame 1 w.dec.deconv3W w.dec.deconv3B id
      (convT2dSame 2 w.dec.deconv2W w.dec.deconv2B relu
        (convT2dSame 2 w.dec.deconv1W w.dec.deconv1B relu
          (reshape3 encConvDim2 encConvDim2 encFilters2
            (dense w.dec.denseW w.dec.denseB
              (dense w.enc.latentW w.enc.latentB
                (flatten (encStage2 w.enc (encStage1 w.enc img))))))))
        i j c : ℚ) : ℝ)

/-- Loss functions selectable at `compile` time. -/
inductive Loss where
  | mse
  | mae
  | binaryCrossentropy
deriving DecidableEq

/-- Optimizers selectable at `compile` time; `adam` with no further
arguments keeps the library-default hyperparameters. -/
inductive Optimizer where
  | adam
  | sgd
  | rmsprop
deriving DecidableEq

structure CompileConfig where
  loss : Loss
  optimizer : Optimizer

/-- The notebook compiles with loss mse and optimizer adam. -/
def autoencoderCompile : CompileConfig :=
  { loss := Loss.mse, optimizer := Optimizer.adam }

/-- The arguments of an `autoencoder.fit(x, y, validation_data=(valX,
valY), epochs, batch_size)` call, over the already-prepared data. -/
structure FitCall (ntr nte : ℕ) where
  x : Batch ntr
  y : Batch ntr
  valX : Batch nte
  valY : Batch nte
  epochs : ℕ
  batchSize : ℕ

/-- The fit call autoencoder.fit(x_train_noisy, x_train,
validation_data=(x_test_noisy, x_test), epochs=2, batch_size=batch_size)`
as issued by the notebook on the prepared state `s`. -/
def autoencoderFitCall {ntr nte : ℕ} (s : PrepState ntr nte) :
    FitCall ntr nte :=
  { x := s.xTrainNoisy, y := s.xTrain, valX := s.xTestNoisy,
    valY := s.xTest, epochs := 2, batchSize := batch_size }

/-- Modelled from the spec: the library's `fit` loop ("validate each
epoch against (noisy test image, clean test image) pairs without
updating weights").  Each epoch applies one pass of training updates
`trainEpoch` and then computes a validation score `validate` as a pure
function of the weights; `fit` returns the final weights and the
per-epoch validation scores. -/
def runEpochs {W : Type} (trainEpoch : W → W) (validate : W → ℚ) :
    ℕ → W → W × List ℚ
  | 0, w => (w, [])
  | n + 1, w =>
      let w1 := trainEpoch w
      let rest := runEpochs trainEpoch validate n w1
      (rest.1, validate w1 :: rest.2)

/-- The state `autoencoder.predict` runs against: the parameters the
model currently holds. -/
structure ModelState where
  weights : AEWeights

/-- Inference x_decoded = autoencoder.predict(x_test_noisy) with explicit state
passing: a forward pass over the batch, returning the reconstructions
together with the (untouched) model state. -/
noncomputable def predict {n : ℕ} (s : ModelState) (xs : Batch n) :
    (Fin n → Fin image_size → Fin image_size → Fin 1 → ℝ) × ModelState :=
  (fun b => autoencoderFwd s.weights (xs b), s)

/-- All-zero encoder parameters (a concrete instantiation point). -/
def zeroEncoderWeights : EncoderWeights :=
  { conv1W := fun _ _ _ _ => 0, conv1B := fun _ => 0,
    conv2W := fun _ _ _ _ => 0, conv2B := fun _ => 0,
    latentW := fun _ _ => 0, latentB := fun _ => 0 }

/-- All-zero decoder parameters. -/
def zeroDecoderWeights : DecoderWeights :=
  { denseW := fun _ _ => 0, denseB := fun _ => 0,
    deconv1W := fun _ _ _ _ => 0, deconv1B := fun _ => 0,
    deconv2W := fun _ _ _ _ => 0, deconv2B := fun _ => 0,
    deconv3W := fun _ _ _ _ => 0, deconv3B := fun _ => 0 }

/-- All-zero autoencoder parameters. -/
def zeroAEWeights : AEWeights :=
  { enc := zeroEncoderWeights, dec := zeroDecoderWeights }

lemma clip01_nonneg (q : ℚ) : 0 ≤ clip01 q := by
  unfold clip01
  rcases le_total (max q 0) 1 with h | h
  · simp [min_eq_left h]
  · simp [min_eq_right h]

lemma clip01_le_one (q : ℚ) : clip01 q ≤ 1 := min_le_right _ _

lemma sigmoid_nonneg (x : ℝ) : 0 ≤ sigmoid x := by
  unfold sigmoid
  have h : (0 : ℝ) < 1 + Real.exp (-x) := by positivity
  exact le_of_lt (div_pos one_pos h)

lemma sigmoid_le_one (x : ℝ) : sigmoid x ≤ 1 := by
  unfold sigmoid
  have h : (0 : ℝ) < 1 + Real.exp (-x) := by positivity
  rw [div_le_one h]
  have := Real.exp_pos (-x)
  linarith

/-- C1: the Autoencoder forward computation equals
decoder(encoder(input)) for every input image, with both sides reading
their parameters from the one shared record `w` — training that mutates
`w` is seen identically by the composite and by the standalone encoder
and decoder. -/
theorem autoencoder_is_decoder_after_encoder (w : AEWeights) (img : Img) :
    autoencoderFwd w img = decoderApply w.dec (encoderApply w.enc img) :=
  rfl

/-- C2: for every clean tensor and every possible noise draw, every
element of both noisy outputs lies in the interval from 0 to 1; the
output type is the clean input's type, so the shape is preserved, and
the function is total (clipping saturates, never errors). -/
theorem noise_injection_clipped_into_unit_interval {ntr nte : ℕ}
    (s : PrepState ntr nte) (noiseTr : Batch ntr) (noiseTe : Batch nte)
    (b : Fin ntr) (b2 : Fin nte) (i j : Fin image_size) (c : Fin 1) :
    (0 ≤ (noiseInjection s noiseTr noiseTe).xTrainNoisy b i j c ∧
      (noiseInjection s noiseTr noiseTe).xTrainNoisy b i j c ≤ 1) ∧
    (0 ≤ (noiseInjection s noiseTr noiseTe).xTestNoisy b2 i j c ∧
      (noiseInjection s noiseTr noiseTe).xTestNoisy b2 i j c ≤ 1) :=
  ⟨⟨clip01_nonneg _, clip01_le_one _⟩, ⟨clip01_nonneg _, clip01_le_one _⟩⟩

/-- C3: data preparation scales every uint8 pixel by 1/255 and, since a
uint8 pixel is at most 255, every output value lies in the interval from
0 to 1; the output type records the (N,28,28,1) shape. -/
theorem data_prep_scales_into_unit_interval {n : ℕ}
    (raw : Fin n → Fin image_size → Fin image_size → ℕ)
    (hraw : ∀ b i j, raw b i j < 256)
    (b : Fin n) (i j : Fin image_size) (c : Fin 1) :
    dataPrep raw b i j c = (raw b i j : ℚ) / 255 ∧
    0 ≤ dataPrep raw b i j c ∧ dataPrep raw b i j c ≤ 1 := by
  refine ⟨rfl, ?_, ?_⟩
  · unfold dataPrep
    positivity
  · unfold dataPrep
    rw [div_le_one (by norm_num : (0 : ℚ) < 255)]
    have h := Nat.lt_succ_iff.mp (hraw b i j)
    exact_mod_cast h

/-- A concrete raw batch for instantiating the data-preparation theorem:
one image whose every pixel is 200. -/
def rawExample : Fin 1 → Fin image_size → Fin image_size → ℕ :=
  fun _ _ _ => 200

theorem data_prep_scales_into_unit_interval_witness :
    dataPrep rawExample 0 ⟨0, by decide⟩ ⟨0, by decide⟩ 0 = (200 : ℚ) / 255 ∧
    0 ≤ dataPrep rawExample 0 ⟨0, by decide⟩ ⟨0, by decide⟩ 0 ∧
    dataPrep rawExample 0 ⟨0, by decide⟩ ⟨0, by decide⟩ 0 ≤ 1 :=
  data_prep_scales_into_unit_interval rawExample
    (fun _ _ _ => by norm_num [rawExample]) 0 ⟨0, by decide⟩ ⟨0, by decide⟩ 0

/-- C4: the encoder emits exactly latent_dim = 16 values, its forward
pass is the dense bottleneck applied after the two convolutions and the
flatten, and that bottleneck is affine (no activation): it satisfies the
additivity law `f (u + v) + f 0 = f u + f v`, which a relu- or
sigmoid-wrapped layer would violate. -/
theorem encoder_latent_dim_and_linear_bottleneck (w : EncoderWeights)
    (img : Img) :
    (List.ofFn (encoderApply w img)).length = latent_dim ∧
    latent_dim = 16 ∧
    encoderApply w img
      = dense w.latentW w.latentB (flatten (encStage2 w (encStage1 w img))) ∧
    ∀ (u v : Fin encFlatDim → ℚ) (o : Fin latent_dim),
      dense w.latentW w.latentB (fun t => u t + v t) o
          + dense w.latentW w.latentB (fun _ => 0) o
        = dense w.latentW w.latentB u o + dense w.latentW w.latentB v o := by
  refine ⟨List.length_ofFn _, rfl, rfl, ?_⟩
  intro u v o
  simp only [dense, add_mul, Finset.sum_add_distrib, zero_mul,
    Finset.sum_const_zero]
  ring

/-- C5: the decoder's output is indexed by decOutDim = image_size = 28
rows and columns and one channel, its last stage is the stride-1
single-filter 3 by 3 same-padded transposed convolution followed
elementwise by the sigmoid, and the sigmoid keeps every output value in
the interval from 0 to 1. -/
theorem decoder_shape_and_sigmoid_range (w : DecoderWeights)
    (z : Fin latent_dim → ℚ) (i j : Fin image_size) (c : Fin 1) :
    decOutDim = image_size ∧ image_size = 28 ∧
    decoderPre w z
      = convT2dSame 1 w.deconv3W w.deconv3B id
          (convT2dSame 2 w.deconv2W w.deconv2B relu
            (convT2dSame 2 w.deconv1W w.deconv1B relu
              (reshape3 encConvDim2 encConvDim2 encFilters2
                (dense w.denseW w.denseB z)))) ∧
    decoderApply w z i j c = sigmoid ((decoderPre w z i j c : ℚ) : ℝ) ∧
    0 ≤ decoderApply w z i j c ∧ decoderApply w z i j c ≤ 1 :=
  ⟨by decide, rfl, rfl, rfl, sigmoid_nonneg _, sigmoid_le_one _⟩

/-- C6: shape propagation: each stride-2 same-padded stage maps its
input size n to ceil(n/2), giving 28 → 14 → 7 with 32 then 64 channels,
the pre-flatten feature map holds 7*7*64 = 3136 values, and the
decoder's initial dense layer (whose unit count encFlatDim the decoder
reshapes to (7,7,64)) projects to exactly that number. -/
theorem encoder_shape_propagation :
    encConvDim1 = ceilDiv image_size 2 ∧ encConvDim1 = 14 ∧
    encConvDim2 = ceilDiv encConvDim1 2 ∧ encConvDim2 = 7 ∧
    encFilters1 = 32 ∧ encFilters2 = 64 ∧
    encFlatDim = encConvDim2 * encConvDim2 * encFilters2 ∧
    encFlatDim = 7 * 7 * 64 ∧ encFlatDim = 3136 := by
  decide

/-- C7: the notebook compiles the autoencoder with mean-squared-error
loss and the adam optimizer (no overridden hyperparameters), and fits it
with mini-batches of 128 for exactly 2 epochs on (noisy train, clean
train) as (input, target), validating against (noisy test, clean test);
in the fit loop each epoch validates after training with a pure score,
so the weights after fitting are exactly the k-fold training update and
validation never changes them. -/
theorem training_configuration {ntr nte : ℕ} (s : PrepState ntr nte) :
    autoencoderCompile.loss = Loss.mse ∧
    autoencoderCompile.optimizer = Optimizer.adam ∧
    (autoencoderFitCall s).batchSize = 128 ∧
    (autoencoderFitCall s).epochs = 2 ∧
    (autoencoderFitCall s).x = s.xTrainNoisy ∧
    (autoencoderFitCall s).y = s.xTrain ∧
    (autoencoderFitCall s).valX = s.xTestNoisy ∧
    (autoencoderFitCall s).valY = s.xTest ∧
    ∀ (trainEpoch : AEWeights → AEWeights) (validate : AEWeights → ℚ)
      (k : ℕ) (w : AEWeights),
      (runEpochs trainEpoch validate k w).1 = trainEpoch^[k] w := by
  refine ⟨rfl, rfl, rfl, rfl, rfl, rfl, rfl, rfl, ?_⟩
  intro f v k
  induction k with
  | zero => intro w; rfl
  | succ n ih =>
      intro w
      show (runEpochs f v n (f w)).1 = f^[n + 1] w
      rw [Function.iterate_succ_apply]
      exact ih (f w)

/-- C8: inference is a pure, deterministic function of (weights, input):
two predict calls whose states carry equal weights return identical
outputs (of the input batch type, hence identical shape), and each call
returns its model state unchanged. -/
theorem predict_deterministic_and_pure {n : ℕ} (s1 s2 : ModelState)
    (xs : Batch n) (h : s1.weights = s2.weights) :
    (predict s1 xs).1 = (predict s2 xs).1 ∧
    (predict s1 xs).2 = s1 ∧ (predict s2 xs).2 = s2 := by
  refine ⟨?_, rfl, rfl⟩
  show (fun b => autoencoderFwd s1.weights (xs b))
      = fun b => autoencoderFwd s2.weights (xs b)
  rw [h]

/-- A model state holding the all-zero parameters. -/
def zeroModelState : ModelState := { weights := zeroAEWeights }

/-- An all-zero one-image batch. -/
def zeroBatch : Batch 1 := fun _ _ _ _ => 0

theorem predict_deterministic_and_pure_witness :
    (predict zeroModelState zeroBatch).1 = (predict zeroModelState zeroBatch).1 ∧
    (predict zeroModelState zeroBatch).2 = zeroModelState ∧
    (predict zeroModelState zeroBatch).2 = zeroModelState :=
  predict_deterministic_and_pure zeroModelState zeroModelState zeroBatch rfl

/-- C10: noise injection is frame-preserving: the clean tensors xTrain
and xTest are exactly what they were before the injection, and the
noisy tensors are fresh arrays whose element at index (b,i,j,c) is the
clipped sum of the clean element at the same index and the noise drawn
for it. -/
theorem noise_injection_preserves_clean_tensors {ntr nte : ℕ}
    (s : PrepState ntr nte) (noiseTr : Batch ntr) (noiseTe : Batch nte) :
    (noiseInjection s noiseTr noiseTe).xTrain = s.xTrain ∧
    (noiseInjection s noiseTr noiseTe).xTest = s.xTest ∧
    (∀ b i j c, (noiseInjection s noiseTr noiseTe).xTrainNoisy b i j c
        = clip01 (s.xTrain b i j c + noiseTr b i j c)) ∧
    (∀ b i j c, (noiseInjection s noiseTr noiseTe).xTestNoisy b i j c
        = clip01 (s.xTest b i j c + noiseTe b i j c)) :=
  ⟨rfl, rfl, fun _ _ _ _ => rfl, fun _ _ _ _ => rfl⟩

end Autoencoders
